import Mathlib

/-!
# Verification of the geo-streamlit mini demo (`src/app.py`)

This file shallowly embeds the logic of `src/app.py` and proves the specified
properties about it.

* The data loader's column normalization and Antarctica filter are modelled on
  a column-level table of string attributes (`Table`).
* The sample-point generator is parametrized over the numpy `Generator`
  interface (`default_rng` / `uniform`): the library is third-party, so its
  contract (result length, value range) enters as explicit hypotheses.
* Geometry operations (shapely via geopandas: `buffer`, `explode`, `within`,
  CRS reprojection) are parametrized over a `GeoBackend`; the spatial join
  `gpd.sjoin(..., predicate="within", how="left")` is embedded by its
  documented semantics: one output row per (left row, matching right row)
  pair, plus a null-match row for left rows with no match, and an added
  `index_right` column.
* `view_from_bounds` is embedded over the reals, with `Real.logb 2` for
  `np.log2` and `min (max · lo) hi` for `np.clip`.
-/

/-! ## Data loader: the countries table (`src/app.py` lines 29-36) -/

/-- A row of an attribute table: an association list from column name to
string value.  A missing key models a null / absent attribute. -/
abbrev Row := List (String × String)

/-- A dataframe of non-geometry attributes: a list of column names and rows. -/
structure Table where
  cols : List String
  rows : List Row
  deriving Repr, DecidableEq

/-- The priority-ordered candidate name columns of `src/app.py` line 29. -/
def nameCandidates : List String :=
  ["name", "ADMIN", "NAME", "NAME_LONG", "admin", "name_long"]

/-- Rename one column `c` to `"name"`, in the column list and in every row. -/
def renameTo (t : Table) (c : String) : Table :=
  { cols := t.cols.map (fun x => if x = c then "name" else x)
    rows := t.rows.map (fun r => r.map (fun kv =>
      (if kv.1 = c then "name" else kv.1, kv.2))) }

/-- Lines 29-32: scan the candidate list in order and rename the first
candidate present in the columns to `"name"`; if none is present the table is
left unchanged. -/
def standardiseName (t : Table) : Table :=
  match nameCandidates.find? (fun c => t.cols.contains c) with
  | some c => renameTo t c
  | none => t

/-- The row predicate of line 36: `countries["name"].str.lower() != "antarctica"`.
A row with no `"name"` value (NaN) compares unequal and is kept. -/
def notAntarctica (r : Row) : Bool :=
  match r.lookup "name" with
  | some v => !(v.toLower == "antarctica")
  | none => true

/-- Lines 34-36: drop Antarctica if a `"name"` column is present. -/
def dropAntarctica (t : Table) : Table :=
  if t.cols.contains "name" then
    { t with rows := t.rows.filter notAntarctica }
  else t

/-- The attribute part of `load_data` (lines 29-36): normalize the name column,
then remove Antarctica. -/
def load_data_countries (t : Table) : Table :=
  dropAntarctica (standardiseName t)

/-! ## Data loader: the sample points (`src/app.py` lines 40-47)

`np.random.default_rng(42)` and `rng.uniform` are third-party; the embedding
takes the generator as a parameter: a state type `σ`, a seeding function and a
`uniform(low, high, size)` sampler returning the drawn list and the advanced
state. -/

/-- A row of the `pts` GeoDataFrame: columns `id`, `lat`, `lon` and the point
geometry `Point(lon, lat)`. -/
structure PtRow where
  id : Nat
  lat : Real
  lon : Real
  geom : Real × Real

/-- Lines 40-47: seed the generator with 42, draw 600 latitudes in
[-60, 75), then 600 longitudes in [-180, 180) from the advanced state, and
build the point rows with `id = arange(size)` and geometry `Point(lon, lat)`.
(The `zip` mirrors `zip(lons, lats)`; by the generator contract both lists
have length 600, so no truncation occurs.) -/
def load_data_pts (σ : Type) (default_rng : Nat → σ)
    (uniform : σ → Real → Real → Nat → List Real × σ) : List PtRow :=
  let r0 := default_rng 42
  let lats := (uniform r0 (-60) 75 600).1
  let r1 := (uniform r0 (-60) 75 600).2
  let lons := (uniform r1 (-180) 180 600).1
  ((lats.zip lons).enum).map (fun p =>
    { id := p.1, lat := p.2.1, lon := p.2.2, geom := (p.2.2, p.2.1) })

/-! ## The view-fit heuristic (`src/app.py` lines 52-59) -/

/-- Lines 52-59, over the bounding box `(minx, miny, maxx, maxy)`:
midpoint center, span floored at 0.1, and
`np.clip(np.log2(360.0 / span), 2, 8)` as `min (max · 2) 8`. -/
noncomputable def view_from_bounds (minx miny maxx maxy : Real) :
    Real × Real × Real :=
  let center_lat := (miny + maxy) / 2
  let center_lon := (minx + maxx) / 2
  let span := max (max (maxx - minx) (maxy - miny)) 0.1
  let zoom := min (max (Real.logb 2 (360.0 / span)) 2) 8
  (center_lat, center_lon, zoom)

/-- The spec's words: `clamp(x, lo, hi)`. -/
noncomputable def clampSpec (x lo hi : Real) : Real := max lo (min x hi)

/-! ## Geometry backend

The geometry operations of `src/app.py` are single calls into shapely /
geopandas.  The embedding abstracts them as a backend structure; theorems
that need a library fact (e.g. that exploded parts are single-part fixed
points of `buffer(0)`) take it as an explicit hypothesis. -/

/-- The geometry operations `src/app.py` calls on shapely/geopandas. -/
structure GeoBackend where
  Geom : Type
  /-- `geom.buffer(0)` (line 74): geometry repair. -/
  buffer0 : Geom → Geom
  /-- `explode(index_parts=False, ignore_index=True)` (line 75): the list of
  single-part pieces of a geometry, in order. -/
  explode : Geom → List Geom
  /-- `point.within(geom)` (the `predicate="within"` of line 83). -/
  withinPt : Real × Real → Geom → Bool
  /-- `to_crs(3857)` (line 78). -/
  toWebMercator : Geom → Geom
  /-- planar `buffer(d)` in meters (line 79). -/
  bufferBy : Geom → Real → Geom
  /-- `to_crs(4326)` (line 80). -/
  toGeographic : Geom → Geom
  /-- `total_bounds` of a list of geometries (line 53). -/
  totalBounds : List Geom → Real × Real × Real × Real

/-- A row of the countries GeoDataFrame as the pipeline uses it: its `name`
attribute and its geometry. -/
structure Region (G : Type) where
  name : String
  geom : G

/-- Line 70: `countries[countries["name"] == country_name]`. -/
def sel_filter {G : Type} (cs : List (Region G)) (nm : String) : List (Region G) :=
  cs.filter (fun r => r.name == nm)

/-- Lines 73-75: `sel["geometry"] = sel.geometry.buffer(0)` then
`sel.explode(index_parts=False, ignore_index=True)`: repair every row's
geometry, then split each row into one row per single-part piece, keeping the
row's attributes. -/
def sel_repair_explode (B : GeoBackend) (rs : List (Region B.Geom)) :
    List (Region B.Geom) :=
  (rs.map (fun r => Region.mk r.name (B.buffer0 r.geom))).flatMap
    (fun r => (B.explode r.geom).map (fun g => Region.mk r.name g))

/-- The whole selection pipeline of lines 70-75 (filter, repair, explode). -/
def sel_pipeline (B : GeoBackend) (cs : List (Region B.Geom)) (nm : String) :
    List (Region B.Geom) :=
  sel_repair_explode B (sel_filter cs nm)

/-- Lines 78-80: reproject the selection to Web Mercator, buffer by
`buffer_km * 1000` meters, reproject back to geographic coordinates. -/
def buffered_of (B : GeoBackend) (sel : List (Region B.Geom))
    (buffer_km : Real) : List B.Geom :=
  (sel.map (fun r => B.toWebMercator r.geom)).map
    (fun g => B.toGeographic (B.bufferBy g (buffer_km * 1000)))

/-- A row of `joined` (line 83 output plus the `inside` flag of line 84):
the point's columns, the `index_right` column added by `gpd.sjoin` (the
positional index of the matched right row, null when unmatched), the matched
region `name` (null when unmatched), and `inside`. -/
structure JoinedRow where
  id : Nat
  lat : Real
  lon : Real
  geom : Real × Real
  index_right : Option Nat
  name : Option String
  inside : Bool

/-- Line 83: `gpd.sjoin(pts, sel[["name", "geometry"]], predicate="within",
how="left")` by its documented semantics: for each left row in order, one
output row per right row whose geometry the point is `within` (carrying that
right row's index and name), or a single null-match row when there is none. -/
def sjoin_left_within (B : GeoBackend) (pts : List PtRow)
    (sel : List (Region B.Geom)) : List (PtRow × Option Nat × Option String) :=
  pts.flatMap (fun p =>
    let ms := sel.enum.filter (fun ir => B.withinPt p.geom ir.2.geom)
    if ms.isEmpty then [(p, none, none)]
    else ms.map (fun ir => (p, some ir.1, some ir.2.name)))

/-- Lines 83-84: the joined table with `inside = joined["name"].notna()`. -/
def membership_of_sel (B : GeoBackend) (pts : List PtRow)
    (sel : List (Region B.Geom)) : List JoinedRow :=
  (sjoin_left_within B pts sel).map (fun x =>
    { id := x.1.id, lat := x.1.lat, lon := x.1.lon, geom := x.1.geom,
      index_right := x.2.1, name := x.2.2, inside := x.2.2.isSome })

/-- The Membership Table as a function of the raw inputs: the join of the
sample points against the exploded, repaired selection for `nm`. -/
def membershipTable (B : GeoBackend) (cs : List (Region B.Geom))
    (pts : List PtRow) (nm : String) : List JoinedRow :=
  membership_of_sel B pts (sel_pipeline B cs nm)

/-! ## CSV export (`src/app.py` lines 139-141) -/

/-- The columns of the `pts` GeoDataFrame (lines 43-47). -/
def pts_columns : List String := ["id", "lat", "lon", "geometry"]

/-- The columns of the right side of the join: `sel[["name", "geometry"]]`. -/
def sjoin_right_columns : List String := ["name", "geometry"]

/-- The columns of `joined`: the left columns, then the `index_right` column
added by `sjoin`, then the right columns minus the right geometry, then the
appended `inside` column. -/
def joined_columns : List String :=
  pts_columns ++ ["index_right"]
    ++ sjoin_right_columns.filter (fun c => !(c == "geometry")) ++ ["inside"]

/-- The columns of the exported CSV: `joined.drop(columns=["geometry"])`. -/
def csv_columns : List String :=
  joined_columns.filter (fun c => !(c == "geometry"))

/-- One CSV data line of `to_csv(index=False)`.  Numeric cell rendering is
abstracted into `fmt` (pandas float formatting); a null cell is empty, a
boolean cell is `True`/`False`. -/
def csv_line (fmt : Real → String) (r : JoinedRow) : String :=
  String.intercalate ","
    [toString r.id, fmt r.lat, fmt r.lon,
     (match r.index_right with | none => "" | some n => fmt n),
     (match r.name with | none => "" | some s => s),
     (cond r.inside "True" "False")]

/-- Line 139: `joined.drop(columns=["geometry"]).to_csv(index=False)`: a
header row naming the columns, then one newline-terminated line per row. -/
def to_csv (fmt : Real → String) (rows : List JoinedRow) : String :=
  String.intercalate "," csv_columns ++ "\n"
    ++ String.join (rows.map (fun r => csv_line fmt r ++ "\n"))

/-- Line 139: `.encode("utf-8")`. -/
def csv_bytes (fmt : Real → String) (rows : List JoinedRow) : ByteArray :=
  (to_csv fmt rows).toUTF8

/-- Line 141: the suggested download filename. -/
def download_file_name : String := "joined_points.csv"

/-- Line 141: the download MIME type. -/
def download_mime : String := "text/csv"

/-! ## The rendering pipeline (`src/app.py` lines 70-141) -/

/-- The map layers built at lines 97-123, tagged by kind with the data each
carries (a point datum is `(lat, lon, id)`, the columns kept at lines 86-87). -/
inductive Layer (G : Type) where
  | countriesOutline (data : List G)
  | selectionFill (data : List G)
  | bufferOutline (data : List G)
  | insidePoints (data : List (Real × Real × Nat))
  | outsidePoints (data : List (Real × Real × Nat))

/-- Everything the script renders after the short-circuit: the selection, the
buffered geometry, the joined table, the three metrics, the layer list, the
view state and the CSV export. -/
structure Render (G : Type) where
  sel : List (Region G)
  buffered : List G
  joined : List JoinedRow
  insideCount : Nat
  totalCount : Nat
  bufferKm : Real
  layers : List (Layer G)
  viewState : Real × Real × Real
  csvText : String
  csvFileName : String

/-- The script body from line 70 to line 141 as a function of its inputs.
`none` is the `st.stop()` short-circuit of lines 71-72: nothing after it is
computed.  `fmt` abstracts pandas' numeric rendering in the CSV. -/
noncomputable def runApp (B : GeoBackend) (fmt : Real → String)
    (countries : List (Region B.Geom)) (pts : List PtRow)
    (country_name : String) (buffer_km : Real)
    (show_all_countries show_points_outside : Bool) :
    Option (Render B.Geom) :=
  let sel0 := sel_filter countries country_name
  if sel0.isEmpty then none
  else
    let sel := sel_repair_explode B sel0
    let buffered := buffered_of B sel buffer_km
    let joined := membership_of_sel B pts sel
    let inside_pts := (joined.filter (fun r => r.inside)).map
      (fun r => (r.lat, r.lon, r.id))
    let outside_pts := (joined.filter (fun r => !r.inside)).map
      (fun r => (r.lat, r.lon, r.id))
    let layers :=
      (if show_all_countries then
        [Layer.countriesOutline (countries.map (fun r => r.geom))] else [])
      ++ [Layer.selectionFill (sel.map (fun r => r.geom))]
      ++ (if 0 < buffer_km then [Layer.bufferOutline buffered] else [])
      ++ (if 0 < inside_pts.length then [Layer.insidePoints inside_pts] else [])
      ++ (if show_points_outside && decide (0 < outside_pts.length) then
        [Layer.outsidePoints outside_pts] else [])
    let tb := B.totalBounds (sel.map (fun r => r.geom))
    some
      { sel := sel
        buffered := buffered
        joined := joined
        insideCount := (joined.filter (fun r => r.inside)).length
        totalCount := joined.length
        bufferKm := buffer_km
        layers := layers
        viewState := view_from_bounds tb.1 tb.2.1 tb.2.2.1 tb.2.2.2
        csvText := to_csv fmt joined
        csvFileName := download_file_name }

/-! ## Concrete instantiations used by witnesses

The geometry backend and the random generator are third-party parameters;
witnesses instantiate them with small concrete implementations that satisfy
the stated contracts. -/

/-- A trivial backend on the unit geometry. -/
def unitBackend : GeoBackend where
  Geom := Unit
  buffer0 _ := ()
  explode _ := [()]
  withinPt _ _ := false
  toWebMercator _ := ()
  bufferBy _ _ := ()
  toGeographic _ := ()
  totalBounds _ := (0, 0, 0, 0)

/-- A generator that returns `size` copies of the lower bound. -/
def toyUniform : Unit → Real → Real → Nat → List Real × Unit :=
  fun s lo _ n => (List.replicate n lo, s)


/-- A backend whose `explode` duplicates its argument and whose `within` is
always true (a point lying within two parts). -/
def dupBackend : GeoBackend where
  Geom := Nat
  buffer0 g := g
  explode g := [g, g]
  withinPt _ _ := true
  toWebMercator g := g
  bufferBy g _ := g
  toGeographic g := g
  totalBounds _ := (0, 0, 0, 0)

/-- A backend on multi-part geometries as lists of atoms: repair is the
identity and `explode` splits into singleton parts. -/
def listBackend : GeoBackend where
  Geom := List Nat
  buffer0 g := g
  explode g := g.map (fun a => [a])
  withinPt _ _ := false
  toWebMercator g := g
  bufferBy g _ := g
  toGeographic g := g
  totalBounds _ := (0, 0, 0, 0)

/-- The 600 sample points produced with the toy generator. -/
def toyPts : List PtRow := load_data_pts Unit (fun _ => ()) toyUniform

/-! ## Theorems: the view-fit heuristic -/

/-- `np.clip(x, lo, hi)` with `lo ≤ hi` agrees with the spec's `clamp`. -/
lemma min_max_eq_clampSpec (x lo hi : Real) (h : lo ≤ hi) :
    min (max x lo) hi = clampSpec x lo hi := by
  unfold clampSpec
  rw [max_min_distrib_left, max_eq_right h, max_comm]

lemma two_le_logb_two_18 : (2 : Real) ≤ Real.logb 2 18 := by
  rw [Real.le_logb_iff_rpow_le one_lt_two (by norm_num)]
  have h : (2 : Real) ^ (2 : Real) = (2 : Real) ^ (2 : Nat) := by
    rw [← Real.rpow_natCast 2 2]
    norm_num
  rw [h]
  norm_num

lemma logb_two_18_le_8 : Real.logb 2 18 ≤ 8 := by
  rw [Real.logb_le_iff_le_rpow one_lt_two (by norm_num)]
  have h : (2 : Real) ^ (8 : Real) = (2 : Real) ^ (8 : Nat) := by
    rw [← Real.rpow_natCast 2 8]
    norm_num
  rw [h]
  norm_num

lemma eight_le_logb_two_3600 : (8 : Real) ≤ Real.logb 2 3600 := by
  rw [Real.le_logb_iff_rpow_le one_lt_two (by norm_num)]
  have h : (2 : Real) ^ (8 : Real) = (2 : Real) ^ (8 : Nat) := by
    rw [← Real.rpow_natCast 2 8]
    norm_num
  rw [h]
  norm_num

/-- C1: the view-fit heuristic returns the bbox midpoint as center and
`clamp(log2(360/span), 2, 8)` with `span = max(maxx-minx, maxy-miny, 0.1)` as
zoom; on the box (-10,-5,10,5) it returns center (0,0) and zoom `log2 18`,
and on the degenerate box (5,5,5,5) it returns zoom 8. -/
theorem view_from_bounds_spec :
    (∀ minx miny maxx maxy : Real,
      view_from_bounds minx miny maxx maxy =
        ((miny + maxy) / 2, (minx + maxx) / 2,
          clampSpec
            (Real.logb 2 (360 / max (max (maxx - minx) (maxy - miny)) 0.1))
            2 8))
    ∧ view_from_bounds (-10) (-5) 10 5 = (0, 0, Real.logb 2 18)
    ∧ (view_from_bounds 5 5 5 5).2.2 = 8 := by
  refine ⟨fun minx miny maxx maxy => ?_, ?_, ?_⟩
  · simp only [view_from_bounds]
    rw [min_max_eq_clampSpec _ _ _ (by norm_num)]
    norm_num
  · simp only [view_from_bounds]
    have hspan : max (max ((10 : Real) - -10) ((5 : Real) - -5)) 0.1 = 20 := by
      rw [max_eq_left (le_max_of_le_left (by norm_num)), max_eq_left (by norm_num)]
      norm_num
    have h360 : (360.0 : Real) / 20 = 18 := by norm_num
    rw [hspan, h360, max_eq_left two_le_logb_two_18,
      min_eq_left logb_two_18_le_8]
    norm_num
  · simp only [view_from_bounds]
    have hspan : max (max ((5 : Real) - 5) ((5 : Real) - 5)) 0.1 = 0.1 := by
      rw [max_eq_right (max_le (by norm_num) (by norm_num))]
    have h3600 : (360.0 : Real) / 0.1 = 3600 := by norm_num
    rw [hspan, h3600,
      max_eq_left (le_trans (by norm_num) eight_le_logb_two_3600),
      min_eq_right (le_trans (by norm_num) eight_le_logb_two_3600)]

/-- C5: for every bounding box, degenerate or inverted included, the zoom
returned by the view-fit heuristic lies in [2, 8]. -/
theorem view_zoom_in_range (minx miny maxx maxy : Real) :
    2 ≤ (view_from_bounds minx miny maxx maxy).2.2 ∧
    (view_from_bounds minx miny maxx maxy).2.2 ≤ 8 := by
  unfold view_from_bounds
  exact ⟨le_min (le_max_right _ _) (by norm_num), min_le_right _ _⟩

/-! ## Theorems: the data loader -/

/-- C7: whenever the dataset carries one of the candidate name columns, the
loaded region collection contains no row whose (normalized) name is
"antarctica" up to case. -/
theorem antarctica_removed (t : Table)
    (h : ∃ c ∈ nameCandidates, t.cols.contains c) :
    ∀ r ∈ (load_data_countries t).rows, ∀ v,
      r.lookup "name" = some v → v.toLower ≠ "antarctica" := by
  obtain ⟨c, hc, hmem⟩ := h
  have hfind : ∃ c', nameCandidates.find? (fun c => t.cols.contains c) = some c' := by
    have : (nameCandidates.find? (fun c => t.cols.contains c)).isSome := by
      rw [List.find?_isSome]
      exact ⟨c, hc, hmem⟩
    exact Option.isSome_iff_exists.mp this
  obtain ⟨c', hc'⟩ := hfind
  have hstd : standardiseName t = renameTo t c' := by
    unfold standardiseName
    rw [hc']
  have hcols : ((standardiseName t).cols).contains "name" := by
    rw [hstd]
    have hcmem : c' ∈ t.cols := by
      have := List.find?_some hc'
      simpa using this
    apply List.elem_eq_true_of_mem
    simp only [renameTo, List.mem_map]
    exact ⟨c', hcmem, by simp⟩
  intro r hr v hv
  unfold load_data_countries dropAntarctica at hr
  rw [if_pos hcols] at hr
  have hkeep : notAntarctica r = true := (List.mem_filter.mp hr).2
  unfold notAntarctica at hkeep
  rw [hv] at hkeep
  simpa using hkeep

/-- Witness for C7 on a concrete two-row dataset carrying `ADMIN`. -/
theorem antarctica_removed_witness :
    (∃ c ∈ nameCandidates,
      (Table.mk ["ADMIN", "pop"]
        [[("ADMIN", "Antarctica"), ("pop", "0")],
         [("ADMIN", "France"), ("pop", "67")]]).cols.contains c)
    ∧ ∀ r ∈ (load_data_countries (Table.mk ["ADMIN", "pop"]
        [[("ADMIN", "Antarctica"), ("pop", "0")],
         [("ADMIN", "France"), ("pop", "67")]])).rows, ∀ v,
      r.lookup "name" = some v → v.toLower ≠ "antarctica" :=
  ⟨by decide, antarctica_removed _ (by decide)⟩

/-! ## Theorems: the rendering pipeline -/

/-- C6: a requested name matching no region makes the whole pipeline halt
silently: the script result is `none` — no repair, buffering, join, view fit,
layers or CSV are produced. -/
theorem unknown_name_halts (B : GeoBackend) (fmt : Real → String)
    (cs : List (Region B.Geom)) (pts : List PtRow) (nm : String)
    (buffer_km : Real) (sa so : Bool)
    (h : ∀ r ∈ cs, r.name ≠ nm) :
    runApp B fmt cs pts nm buffer_km sa so = none := by
  have hf : sel_filter cs nm = [] := by
    rw [sel_filter, List.filter_eq_nil_iff]
    intro r hr
    simpa using h r hr
  simp [runApp, hf]

/-- Witness for C6: requesting "Atlantis" from a collection holding only
"France" yields `none`. -/
theorem unknown_name_halts_witness :
    (∀ r ∈ [(⟨"France", ()⟩ : Region unitBackend.Geom)], r.name ≠ "Atlantis")
    ∧ runApp unitBackend (fun _ => "") [⟨"France", ()⟩] [] "Atlantis" 50
        true false = none :=
  ⟨by simp, unknown_name_halts _ _ _ _ _ _ _ _ (by simp)⟩

/-- C2: for buffer distances d1 and d2 in [0, 200], the joined table and the
inside count of the rendered result are identical: the join tests containment
against the unbuffered selection only. -/
theorem membership_join_buffer_invariant (B : GeoBackend) (fmt : Real → String)
    (cs : List (Region B.Geom)) (pts : List PtRow) (nm : String)
    (sa so : Bool) (d1 d2 : Real)
    (_h1 : 0 ≤ d1) (_h2 : d1 ≤ 200) (_h3 : 0 ≤ d2) (_h4 : d2 ≤ 200) :
    (runApp B fmt cs pts nm d1 sa so).map (fun r => (r.joined, r.insideCount))
    = (runApp B fmt cs pts nm d2 sa so).map
        (fun r => (r.joined, r.insideCount)) := by
  by_cases he : (sel_filter cs nm).isEmpty = true
  · simp [runApp, he]
  · simp [runApp, he]

/-- Witness for C2 at buffer distances 0 and 200. -/
theorem membership_join_buffer_invariant_witness :
    (0 ≤ (0 : Real)) ∧ ((0 : Real) ≤ 200) ∧ (0 ≤ (200 : Real))
    ∧ ((200 : Real) ≤ 200)
    ∧ ((runApp unitBackend (fun _ => "")
          [(⟨"A", ()⟩ : Region unitBackend.Geom)] [] "A" 0 true false).map
            (fun r => (r.joined, r.insideCount))
        = (runApp unitBackend (fun _ => "") [⟨"A", ()⟩] [] "A" 200
            true false).map (fun r => (r.joined, r.insideCount))) :=
  ⟨by norm_num, by norm_num, by norm_num, by norm_num,
    membership_join_buffer_invariant _ _ _ _ _ _ _ _ _
      (by norm_num) (by norm_num) (by norm_num) (by norm_num)⟩

/-! ## Theorems: the sample-point generator -/

/-- The toy generator returns lists of the requested length. -/
lemma toyUniform_len (s : Unit) (lo hi : Real) (n : Nat) :
    (toyUniform s lo hi n).1.length = n := by
  simp [toyUniform]

/-- The toy generator returns values in the requested half-open range. -/
lemma toyUniform_mem (s : Unit) (lo hi : Real) (n : Nat) (x : Real)
    (hx : x ∈ (toyUniform s lo hi n).1) (h : lo < hi) : lo ≤ x ∧ x < hi := by
  have := List.eq_of_mem_replicate hx
  subst this
  exact ⟨le_refl _, h⟩

/-- C4: with any generator honouring the `uniform` length contract, the
loader produces exactly 600 sample points, and two invocations yield
identical (id, lat, lon) triples (the generator is a pure function of the
fixed seed 42). -/
theorem load_data_pts_deterministic (σ : Type) (D : Nat → σ)
    (U : σ → Real → Real → Nat → List Real × σ)
    (hlen : ∀ s lo hi n, (U s lo hi n).1.length = n) :
    (load_data_pts σ D U).length = 600
    ∧ (load_data_pts σ D U).map (fun p => (p.id, p.lat, p.lon))
      = (load_data_pts σ D U).map (fun p => (p.id, p.lat, p.lon)) := by
  constructor
  · simp [load_data_pts, List.enum_length, List.length_zip, hlen]
  · rfl

/-- Witness for C4 with the toy generator. -/
theorem load_data_pts_deterministic_witness :
    (∀ s lo hi n, (toyUniform s lo hi n).1.length = n)
    ∧ ((load_data_pts Unit (fun _ => ()) toyUniform).length = 600
      ∧ (load_data_pts Unit (fun _ => ()) toyUniform).map
          (fun p => (p.id, p.lat, p.lon))
        = (load_data_pts Unit (fun _ => ()) toyUniform).map
            (fun p => (p.id, p.lat, p.lon))) :=
  ⟨toyUniform_len, load_data_pts_deterministic _ _ _ toyUniform_len⟩

/-- With any generator honouring the length contract, the loader's id column
is exactly 0,...,599 in order. -/
lemma load_data_pts_ids (σ : Type) (D : Nat → σ)
    (U : σ → Real → Real → Nat → List Real × σ)
    (hlen : ∀ s lo hi n, (U s lo hi n).1.length = n) :
    (load_data_pts σ D U).map (fun p => p.id) = List.range 600 := by
  unfold load_data_pts
  rw [List.map_map]
  have h1 : ((fun p : PtRow => p.id) ∘ (fun p : Nat × (Real × Real) =>
      ({ id := p.1, lat := p.2.1, lon := p.2.2,
         geom := (p.2.2, p.2.1) } : PtRow))) = Prod.fst := rfl
  rw [h1, List.enum_map_fst, List.length_zip, hlen, hlen, min_self]

/-- C10: with any generator honouring the `uniform` contract (length and
half-open range), every sample point has latitude in [-60, 75] and longitude
in [-180, 180], its geometry is exactly `(lon, lat)`, and the ids are exactly
0,...,599 in order. -/
theorem load_data_pts_bounds_and_ids (σ : Type) (D : Nat → σ)
    (U : σ → Real → Real → Nat → List Real × σ)
    (hlen : ∀ s lo hi n, (U s lo hi n).1.length = n)
    (hmem : ∀ s lo hi n x, x ∈ (U s lo hi n).1 → lo < hi → lo ≤ x ∧ x < hi) :
    ((load_data_pts σ D U).map (fun p => p.id) = List.range 600)
    ∧ ∀ p ∈ load_data_pts σ D U,
        -60 ≤ p.lat ∧ p.lat ≤ 75 ∧ -180 ≤ p.lon ∧ p.lon ≤ 180
        ∧ p.geom = (p.lon, p.lat) := by
  constructor
  · exact load_data_pts_ids σ D U hlen
  · intro p hp
    unfold load_data_pts at hp
    obtain ⟨q, hq, hpq⟩ := List.mem_map.mp hp
    have hz : q.2 ∈ _ := List.snd_mem_of_mem_enum hq
    have hla : q.2.1 ∈ (U (D 42) (-60) 75 600).1 :=
      (List.of_mem_zip hz).1
    have hlo : q.2.2 ∈ (U ((U (D 42) (-60) 75 600).2) (-180) 180 600).1 :=
      (List.of_mem_zip hz).2
    have hb1 := hmem _ _ _ _ _ hla (by norm_num)
    have hb2 := hmem _ _ _ _ _ hlo (by norm_num)
    subst hpq
    exact ⟨hb1.1, le_of_lt hb1.2, hb2.1, le_of_lt hb2.2, rfl⟩

/-- Witness for C10 with the toy generator. -/
theorem load_data_pts_bounds_and_ids_witness :
    (∀ s lo hi n, (toyUniform s lo hi n).1.length = n)
    ∧ (∀ s lo hi n x, x ∈ (toyUniform s lo hi n).1 → lo < hi →
        lo ≤ x ∧ x < hi)
    ∧ (((load_data_pts Unit (fun _ => ()) toyUniform).map (fun p => p.id)
        = List.range 600)
      ∧ ∀ p ∈ load_data_pts Unit (fun _ => ()) toyUniform,
          -60 ≤ p.lat ∧ p.lat ≤ 75 ∧ -180 ≤ p.lon ∧ p.lon ≤ 180
          ∧ p.geom = (p.lon, p.lat)) :=
  ⟨toyUniform_len, toyUniform_mem,
    load_data_pts_bounds_and_ids _ _ _ toyUniform_len toyUniform_mem⟩

/-! ## Theorems: the membership join -/

/-- Length of a `flatMap` whose blocks all have length `k`. -/
lemma length_flatMap_const {α β : Type} (l : List α) (f : α → List β) (k : Nat)
    (h : ∀ a ∈ l, (f a).length = k) : (l.flatMap f).length = k * l.length := by
  induction l with
  | nil => simp
  | cons a t ih =>
    simp only [List.flatMap_cons, List.length_append,
      h a (List.mem_cons_self a t),
      ih (fun x hx => h x (List.mem_cons_of_mem a hx)), List.length_cons,
      Nat.mul_succ]
    omega

/-- Mapping over a `flatMap` whose blocks map to singletons. -/
lemma map_flatMap_singleton {α β γ : Type} (l : List α) (f : α → List β)
    (g : β → γ) (e : α → γ) (h : ∀ a ∈ l, (f a).map g = [e a]) :
    (l.flatMap f).map g = l.map e := by
  induction l with
  | nil => simp
  | cons a t ih =>
    simp only [List.flatMap_cons, List.map_append, List.map_cons,
      h a (List.mem_cons_self a t),
      ih (fun x hx => h x (List.mem_cons_of_mem a hx))]
    rfl

/-- A `flatMap` of singleton blocks is the identity. -/
lemma flatMap_eq_self {α : Type} (l : List α) (f : α → List α)
    (h : ∀ a ∈ l, f a = [a]) : l.flatMap f = l := by
  induction l with
  | nil => simp
  | cons a t ih =>
    simp [List.flatMap_cons, h a (List.mem_cons_self a t),
      ih (fun x hx => h x (List.mem_cons_of_mem a hx))]

/-- With any generator honouring the length contract the loader returns 600
rows. -/
lemma load_data_pts_length (σ : Type) (D : Nat → σ)
    (U : σ → Real → Real → Nat → List Real × σ)
    (hlen : ∀ s lo hi n, (U s lo hi n).1.length = n) :
    (load_data_pts σ D U).length = 600 := by
  simp [load_data_pts, List.enum_length, List.length_zip, hlen]

/-- The toy points list has 600 rows. -/
lemma toyPts_length : toyPts.length = 600 :=
  load_data_pts_length Unit (fun _ => ()) toyUniform toyUniform_len

/-- The spatial join emits `k` rows per point when every point matches
exactly `k ≥ 1` parts. -/
lemma sjoin_length_const (B : GeoBackend) (pts : List PtRow)
    (sel : List (Region B.Geom)) (k : Nat) (hk : 0 < k)
    (h : ∀ p ∈ pts, (sel.enum.filter
      (fun ir => B.withinPt p.geom ir.2.geom)).length = k) :
    (sjoin_left_within B pts sel).length = k * pts.length := by
  unfold sjoin_left_within
  refine length_flatMap_const _ _ _ ?_
  intro p hp
  have hms := h p hp
  by_cases hemp : (sel.enum.filter
      (fun ir => B.withinPt p.geom ir.2.geom)).isEmpty = true
  · exfalso
    rw [List.isEmpty_iff] at hemp
    rw [hemp] at hms
    simp at hms
    omega
  · simp only [hemp, Bool.false_eq_true, if_false, List.length_map]
    exact hms

/-- C3 counterexample: with a selection exploding into two parts that both
contain every point, the Membership Table holds two rows per sample point —
1200 rows, not 600: the left spatial join repeats a point once per match. -/
theorem membership_table_row_count_cex :
    (membershipTable dupBackend [⟨"X", (0 : Nat)⟩] toyPts "X").length = 1200
    ∧ (membershipTable dupBackend [⟨"X", (0 : Nat)⟩] toyPts "X").length ≠ 600 := by
  have hsel : sel_pipeline dupBackend [⟨"X", (0 : Nat)⟩] "X"
      = [⟨"X", (0 : Nat)⟩, ⟨"X", (0 : Nat)⟩] := by
    simp [sel_pipeline, sel_filter, sel_repair_explode, dupBackend]
  have hcount : ∀ p ∈ toyPts,
      (([⟨"X", (0 : Nat)⟩, ⟨"X", (0 : Nat)⟩] : List (Region dupBackend.Geom)).enum.filter
        (fun ir => dupBackend.withinPt p.geom ir.2.geom)).length = 2 := by
    intro p hp
    simp [dupBackend, List.enum]
  have h : (membershipTable dupBackend [⟨"X", (0 : Nat)⟩] toyPts "X").length = 1200 := by
    unfold membershipTable membership_of_sel
    rw [List.length_map, hsel,
      sjoin_length_const dupBackend toyPts _ 2 (by norm_num) hcount,
      toyPts_length]
  exact ⟨h, by rw [h]; norm_num⟩

/-- C3 (amended): the join is a left join, one row per (point, matching part)
pair and a null row for unmatched points; so whenever every sample point lies
within at most one part of the exploded selection, the Membership Table has
exactly one row per sample point: ids 0,...,599 in order and 600 rows. -/
theorem membership_table_one_row_per_point (B : GeoBackend)
    (cs : List (Region B.Geom)) (nm : String) (σ : Type) (D : Nat → σ)
    (U : σ → Real → Real → Nat → List Real × σ)
    (hlen : ∀ s lo hi n, (U s lo hi n).1.length = n)
    (huniq : ∀ p ∈ load_data_pts σ D U,
      ((sel_pipeline B cs nm).enum.filter
        (fun ir => B.withinPt p.geom ir.2.geom)).length ≤ 1) :
    (membershipTable B cs (load_data_pts σ D U) nm).map (fun r => r.id)
      = List.range 600
    ∧ (membershipTable B cs (load_data_pts σ D U) nm).length = 600 := by
  have hmap : (membershipTable B cs (load_data_pts σ D U) nm).map
      (fun r => r.id) = (load_data_pts σ D U).map (fun p => p.id) := by
    unfold membershipTable membership_of_sel sjoin_left_within
    rw [List.map_map]
    refine map_flatMap_singleton _ _ _ _ ?_
    intro p hp
    have hle := huniq p hp
    rcases hms : (sel_pipeline B cs nm).enum.filter
        (fun ir => B.withinPt p.geom ir.2.geom) with _ | ⟨m, tl⟩
    · simp [hms]
    · rcases tl with _ | ⟨m2, tl2⟩
      · simp [hms]
      · rw [hms, List.length_cons, List.length_cons] at hle
        omega
  constructor
  · rw [hmap, load_data_pts_ids σ D U hlen]
  · have hlm := congrArg List.length hmap
    rw [List.length_map, List.length_map] at hlm
    rw [hlm, load_data_pts_length σ D U hlen]

/-- Witness for the amended C3: a selection no point matches (at most one
match trivially) yields one row per point. -/
theorem membership_table_one_row_per_point_witness :
    (∀ s lo hi n, (toyUniform s lo hi n).1.length = n)
    ∧ (∀ p ∈ load_data_pts Unit (fun _ => ()) toyUniform,
        ((sel_pipeline unitBackend [⟨"A", ()⟩] "A").enum.filter
          (fun ir => unitBackend.withinPt p.geom ir.2.geom)).length ≤ 1)
    ∧ ((membershipTable unitBackend [⟨"A", ()⟩]
        (load_data_pts Unit (fun _ => ()) toyUniform) "A").map (fun r => r.id)
          = List.range 600
      ∧ (membershipTable unitBackend [⟨"A", ()⟩]
          (load_data_pts Unit (fun _ => ()) toyUniform) "A").length = 600) :=
  ⟨toyUniform_len, fun p hp => by simp [unitBackend],
    membership_table_one_row_per_point _ _ _ _ _ _ toyUniform_len
      (fun p hp => by simp [unitBackend])⟩

/-! ## Theorems: the selection pipeline -/

/-- C9: the selection pipeline (filter by name, zero-buffer repair, explode)
is idempotent, given the geometry-library fact that a part produced by
exploding a repaired geometry is itself a fixed point of repair-and-explode.
Purity is structural: the pipeline is a function of its two inputs alone. -/
theorem sel_pipeline_idempotent (B : GeoBackend) (cs : List (Region B.Geom))
    (nm : String)
    (hfix : ∀ g g', g' ∈ B.explode (B.buffer0 g) →
      B.explode (B.buffer0 g') = [g']) :
    sel_pipeline B (sel_pipeline B cs nm) nm = sel_pipeline B cs nm := by
  have hmem : ∀ r ∈ sel_pipeline B cs nm, r.name = nm ∧
      B.explode (B.buffer0 r.geom) = [r.geom] := by
    intro r hr
    unfold sel_pipeline sel_repair_explode sel_filter at hr
    rw [List.mem_flatMap] at hr
    obtain ⟨a, ha, hra⟩ := hr
    rw [List.mem_map] at ha
    obtain ⟨b, hb, hab⟩ := ha
    rw [List.mem_filter] at hb
    rw [List.mem_map] at hra
    obtain ⟨g, hg, hrg⟩ := hra
    subst hab
    subst hrg
    refine ⟨by simpa using hb.2, ?_⟩
    exact hfix _ _ hg
  have hfilter : sel_filter (sel_pipeline B cs nm) nm = sel_pipeline B cs nm := by
    unfold sel_filter
    apply List.filter_eq_self.mpr
    intro r hr
    simp [(hmem r hr).1]
  conv_lhs => rw [sel_pipeline]
  rw [hfilter]
  unfold sel_repair_explode
  rw [List.flatMap_map]
  apply flatMap_eq_self
  intro r hr
  show (B.explode (B.buffer0 r.geom)).map (fun g => Region.mk r.name g) = [r]
  rw [(hmem r hr).2]
  rfl

/-- Witness for C9 on a two-part multi-geometry with the list backend. -/
theorem sel_pipeline_idempotent_witness :
    (∀ g g', g' ∈ listBackend.explode (listBackend.buffer0 g) →
      listBackend.explode (listBackend.buffer0 g') = [g'])
    ∧ sel_pipeline listBackend
        (sel_pipeline listBackend [⟨"A", [1, 2]⟩] "A") "A"
      = sel_pipeline listBackend [⟨"A", [1, 2]⟩] "A" := by
  have hfix : ∀ (g g' : List Nat),
      g' ∈ listBackend.explode (listBackend.buffer0 g) →
      listBackend.explode (listBackend.buffer0 g') = [g'] := by
    intro g g' h
    simp only [listBackend, List.mem_map] at h
    obtain ⟨a, ha, rfl⟩ := h
    simp [listBackend]
  exact ⟨hfix, sel_pipeline_idempotent _ _ _ hfix⟩

/-! ## Theorems: the CSV export -/

/-- C8 counterexample: the exported CSV does not have exactly the five
claimed columns — `sjoin` adds `index_right`, which survives the
`drop(columns=["geometry"])`. -/
theorem csv_columns_cex :
    csv_columns ≠ ["id", "lat", "lon", "name", "inside"]
    ∧ "index_right" ∈ csv_columns := by
  constructor
  · decide
  · decide

/-- C8 (amended): the exported CSV has exactly the columns id, lat, lon,
index_right, name, inside, in that order; its text starts with that header
row; the bytes are the UTF-8 encoding of the text; and the suggested
filename is `joined_points.csv`. -/
theorem csv_export_spec :
    csv_columns = ["id", "lat", "lon", "index_right", "name", "inside"]
    ∧ (∀ fmt rows, ∃ body,
        to_csv fmt rows = "id,lat,lon,index_right,name,inside" ++ "\n" ++ body)
    ∧ (∀ fmt rows, csv_bytes fmt rows = (to_csv fmt rows).toUTF8)
    ∧ download_file_name = "joined_points.csv" := by
  refine ⟨by decide, fun fmt rows => ?_, fun fmt rows => rfl, rfl⟩
  exact ⟨String.join (rows.map (fun r => csv_line fmt r ++ "\n")), rfl⟩
